import Mathlib

/-!
Shallow embedding of `src/BlackScholes/black_scholes.py` and verification of
the specification's claims about it.

The Python module consists of a pure pricing function `black_scholes`
(scipy's `norm.cdf` is the standard normal CDF) and two reporting routines,
`black_scholes_table` and `blkschl_vs_market`, whose computational cores are
loops over an option chain fetched from an external market-data collaborator.
We embed the numeric code over the reals, with the standard normal CDF given
by its defining Gaussian integral, and embed the loops over an explicit chain
of rows whose float fields may be NaN (or `None`), mirroring the Python/NumPy
semantics of the checks `vol is None`, `vol <= 0`, `np.isnan(vol)` and
`np.isnan(mid)`.
-/

namespace BlackScholes

open MeasureTheory Set

/-- The Gaussian kernel `exp (-t² / 2)`, the unnormalised standard normal
density that `norm.cdf` integrates. -/
noncomputable def gaussKernel (t : ℝ) : ℝ := Real.exp (-(t ^ 2) / 2)

/-- `norm.cdf` from `scipy.stats`: the standard normal cumulative
distribution function `Φ(x) = (∫_{-∞}^x exp (-t²/2) dt) / √(2π)`. -/
noncomputable def normCdf (x : ℝ) : ℝ :=
  (∫ t in Iic x, gaussKernel t) / Real.sqrt (2 * Real.pi)

/-- Embedding of `black_scholes(S, K, T, r, vol)` (lines 13–23 of
`black_scholes.py`), transcribed operation for operation, including the
placement of the parentheses in the put-price line
`p = (K * math.exp(-r * T) * norm.cdf(-d2) - S )* norm.cdf(-d1)`. -/
noncomputable def black_scholes (S K T r vol : ℝ) : ℝ × ℝ :=
  let d1 := (Real.log (S / K) + (r + 0.5 * vol ^ 2) * T) / (vol * Real.sqrt T)
  let d2 := d1 - vol * Real.sqrt T
  let c := S * normCdf d1 - K * Real.exp (-r * T) * normCdf d2
  let p := (K * Real.exp (-r * T) * normCdf (-d2) - S) * normCdf (-d1)
  (c, p)

/-- Modelled from the spec: the put-price formula that the specification
states, `put = K·exp(−r·T)·Φ(−d2) − S·Φ(−d1)`, with `d1`, `d2` as in the
code. Kept separate from `black_scholes` so the code's put line can be
compared against it. -/
noncomputable def put_formula_spec (S K T r vol : ℝ) : ℝ :=
  let d1 := (Real.log (S / K) + (r + 0.5 * vol ^ 2) * T) / (vol * Real.sqrt T)
  let d2 := d1 - vol * Real.sqrt T
  K * Real.exp (-r * T) * normCdf (-d2) - S * normCdf (-d1)

/-- The exceptions Python's arithmetic can raise inside `black_scholes`:
`ValueError: math domain error` (from `math.log` or `math.sqrt`) and
`ZeroDivisionError`. The code defines no error kind of its own. -/
inductive PyErr where
  | domainError : PyErr
  | zeroDivision : PyErr
deriving DecidableEq

/-- Python float division: raises `ZeroDivisionError` on a zero divisor. -/
noncomputable def pyDiv (a b : ℝ) : Except PyErr ℝ :=
  if b = 0 then Except.error PyErr.zeroDivision else Except.ok (a / b)

/-- `math.log`: raises `ValueError` (math domain error) on a non-positive
argument. -/
noncomputable def pyLog (x : ℝ) : Except PyErr ℝ :=
  if x ≤ 0 then Except.error PyErr.domainError else Except.ok (Real.log x)

/-- `math.sqrt`: raises `ValueError` (math domain error) on a negative
argument. -/
noncomputable def pySqrt (x : ℝ) : Except PyErr ℝ :=
  if x < 0 then Except.error PyErr.domainError else Except.ok (Real.sqrt x)

/-- `black_scholes` with Python's exception behaviour made explicit: the
operations of line 14 are performed in Python's evaluation order (`S / K`,
then `math.log`, then `math.sqrt(T)`, then the division by
`vol * math.sqrt(T)`), each fallible operation propagating its exception.
The function performs no input validation of its own. -/
noncomputable def black_scholes_run (S K T r vol : ℝ) : Except PyErr (ℝ × ℝ) :=
  match pyDiv S K with
  | Except.error e => Except.error e
  | Except.ok q =>
    match pyLog q with
    | Except.error e => Except.error e
    | Except.ok lq =>
      match pySqrt T with
      | Except.error e => Except.error e
      | Except.ok sT =>
        match pyDiv (lq + (r + 0.5 * vol ^ 2) * T) (vol * sT) with
        | Except.error e => Except.error e
        | Except.ok d1 =>
          let d2 := d1 - vol * sT
          Except.ok (S * normCdf d1 - K * Real.exp (-r * T) * normCdf d2,
            (K * Real.exp (-r * T) * normCdf (-d2) - S) * normCdf (-d1))

/-- Whether an `Except` computation finished without raising. -/
def exceptIsOk {ε α : Type} : Except ε α → Bool
  | Except.ok _ => true
  | Except.error _ => false

/-- A Python/NumPy float that may be NaN. -/
inductive PyNum where
  | nan : PyNum
  | val : ℝ → PyNum

/-- Float addition; NaN propagates. -/
def PyNum.add : PyNum → PyNum → PyNum
  | PyNum.val a, PyNum.val b => PyNum.val (a + b)
  | _, _ => PyNum.nan

/-- Float division; NaN propagates. (The code only divides by the literal
`2`, so the zero-divisor case never arises.) -/
noncomputable def PyNum.divNum : PyNum → PyNum → PyNum
  | PyNum.val a, PyNum.val b => PyNum.val (a / b)
  | _, _ => PyNum.nan

/-- `np.isnan`. -/
def PyNum.isnan : PyNum → Bool
  | PyNum.nan => true
  | PyNum.val _ => false

/-- One row of the option chain returned by the market-data collaborator:
`{strike, impliedVolatility, bid, ask}`. `impliedVolatility` is `none` when
the Python value is `None`; a present float may still be NaN. -/
structure ChainRow where
  strike : ℝ
  impliedVolatility : Option PyNum
  bid : PyNum
  ask : PyNum

/-- One entry of the `prices` list built by `black_scholes_table`
(lines 54–59): `{strike, call price, put price, vol}`. -/
structure ModelRow where
  strike : ℝ
  callPrice : ℝ
  putPrice : ℝ
  vol : ℝ

/-- One entry of the `prices` list built by `blkschl_vs_market`
(lines 113–119): `{strike, model price, market price, difference, vol}`. -/
structure CompRow where
  strike : ℝ
  modelPrice : ℝ
  marketPrice : ℝ
  difference : ℝ
  vol : ℝ

/-- The loop of `black_scholes_table` (lines 42–59), embedded over an
explicit chain; spot `S`, time-to-expiry `t` and the chain are supplied by
the external market-data collaborator. The skip test transcribes
`vol is None or vol <= 0 or np.isnan(vol)` (for a NaN float, `vol <= 0` is
false in Python, so NaN rows fall through to the `isnan` test and are
skipped). -/
noncomputable def black_scholes_table_rows (S t r : ℝ) :
    List ChainRow → List ModelRow
  | [] => []
  | row :: rest =>
    match row.impliedVolatility with
    | Option.none => black_scholes_table_rows S t r rest
    | Option.some PyNum.nan => black_scholes_table_rows S t r rest
    | Option.some (PyNum.val v) =>
      if v ≤ 0 then black_scholes_table_rows S t r rest
      else
        { strike := row.strike
          callPrice := (black_scholes S row.strike t r v).1
          putPrice := (black_scholes S row.strike t r v).2
          vol := v } :: black_scholes_table_rows S t r rest

/-- The loop of `blkschl_vs_market` (lines 95–119), embedded over an
explicit chain. After the same volatility skip test as the model table, the
market mid `(bid + ask) / 2` is computed and the row is skipped when the mid
is NaN; otherwise the row is emitted with
`difference = market price − model price`. -/
noncomputable def blkschl_vs_market_rows (S t r : ℝ) :
    List ChainRow → List CompRow
  | [] => []
  | row :: rest =>
    match row.impliedVolatility with
    | Option.none => blkschl_vs_market_rows S t r rest
    | Option.some PyNum.nan => blkschl_vs_market_rows S t r rest
    | Option.some (PyNum.val v) =>
      if v ≤ 0 then blkschl_vs_market_rows S t r rest
      else
        match PyNum.divNum (PyNum.add row.bid row.ask) (PyNum.val 2) with
        | PyNum.nan => blkschl_vs_market_rows S t r rest
        | PyNum.val m =>
          { strike := row.strike
            modelPrice := (black_scholes S row.strike t r v).1
            marketPrice := m
            difference := m - (black_scholes S row.strike t r v).1
            vol := v } :: blkschl_vs_market_rows S t r rest

/-- A Python `datetime`: a calendar date (as a day number) plus a time of
day, the latter expressed as a fraction of a day in `[0, 1)`.
`datetime.strptime(expiry, "%Y-%m-%d")` yields midnight (`frac = 0`);
`datetime.now()` generally has `frac > 0`. -/
structure PyDateTime where
  day : ℤ
  frac : ℝ
  frac_nonneg : 0 ≤ frac
  frac_lt_one : frac < 1

/-- `(datetime.strptime(expiry, "%Y-%m-%d") - datetime.now()).days`
(lines 33 and 86, identical in both reporters): Python's `timedelta.days`
is the floor of the signed difference measured in days. -/
noncomputable def timedelta_days (expiryDay : ℤ) (now : PyDateTime) : ℤ :=
  ⌊(expiryDay : ℝ) - ((now.day : ℝ) + now.frac)⌋

/-- The time-to-expiry both reporters pass to the pricer:
`timedelta.days / 365`. -/
noncomputable def time_to_expiry (expiryDay : ℤ) (now : PyDateTime) : ℝ :=
  (timedelta_days expiryDay now : ℝ) / 365

/-- Modelled from the spec: `timeToExpiry = (expiry date − current date, in
whole days) / 365` — the difference of the two calendar dates, in days. -/
noncomputable def time_to_expiry_spec (expiryDay : ℤ) (now : PyDateTime) : ℝ :=
  ((expiryDay - now.day : ℤ) : ℝ) / 365

section NormCdfFacts

lemma gaussKernel_pos (t : ℝ) : 0 < gaussKernel t := Real.exp_pos _

lemma gaussKernel_eq (t : ℝ) : gaussKernel t = Real.exp (-(1 / 2) * t ^ 2) := by
  unfold gaussKernel; ring_nf

lemma gaussKernel_integrable : Integrable gaussKernel := by
  have h : Integrable (fun t : ℝ => Real.exp (-(1 / 2) * t ^ 2)) :=
    integrable_exp_neg_mul_sq (by norm_num)
  refine h.congr ?_
  filter_upwards with t
  exact (gaussKernel_eq t).symm

lemma integral_gaussKernel : (∫ t, gaussKernel t) = Real.sqrt (2 * Real.pi) := by
  have h := integral_gaussian (1 / 2)
  have h2 : (∫ t, gaussKernel t) = ∫ t : ℝ, Real.exp (-(1 / 2) * t ^ 2) := by
    congr 1; funext t; exact gaussKernel_eq t
  rw [h2, h]
  rw [show Real.pi / (1 / 2) = 2 * Real.pi by ring]

lemma sqrt_two_pi_pos : 0 < Real.sqrt (2 * Real.pi) :=
  Real.sqrt_pos.mpr (by positivity)

lemma normCdf_mono : Monotone normCdf := by
  intro x y hxy
  unfold normCdf
  have h : (∫ t in Iic x, gaussKernel t) ≤ ∫ t in Iic y, gaussKernel t := by
    apply setIntegral_mono_set gaussKernel_integrable.integrableOn
    · filter_upwards with t using (gaussKernel_pos t).le
    · exact HasSubset.Subset.eventuallyLE (Iic_subset_Iic.mpr hxy)
  exact div_le_div_of_nonneg_right h sqrt_two_pi_pos.le

lemma integral_Iic_gaussKernel_pos (x : ℝ) : 0 < ∫ t in Iic x, gaussKernel t := by
  rw [setIntegral_pos_iff_support_of_nonneg_ae
      (by filter_upwards with t using (gaussKernel_pos t).le)
      gaussKernel_integrable.integrableOn]
  have hsupp : Function.support gaussKernel = univ := by
    ext t; simp [Function.support, (gaussKernel_pos t).ne']
  rw [hsupp, univ_inter, Real.volume_Iic]
  exact ENNReal.zero_lt_top

lemma integral_Ioi_gaussKernel_pos (x : ℝ) : 0 < ∫ t in Ioi x, gaussKernel t := by
  rw [setIntegral_pos_iff_support_of_nonneg_ae
      (by filter_upwards with t using (gaussKernel_pos t).le)
      gaussKernel_integrable.integrableOn]
  have hsupp : Function.support gaussKernel = univ := by
    ext t; simp [Function.support, (gaussKernel_pos t).ne']
  rw [hsupp, univ_inter, Real.volume_Ioi]
  exact ENNReal.zero_lt_top

lemma normCdf_pos (x : ℝ) : 0 < normCdf x :=
  div_pos (integral_Iic_gaussKernel_pos x) sqrt_two_pi_pos

lemma normCdf_lt_one (x : ℝ) : normCdf x < 1 := by
  unfold normCdf
  rw [div_lt_one sqrt_two_pi_pos, ← integral_gaussKernel,
    ← intervalIntegral.integral_Iic_add_Ioi (b := x) gaussKernel_integrable.integrableOn
      gaussKernel_integrable.integrableOn]
  exact lt_add_of_pos_right _ (integral_Ioi_gaussKernel_pos x)

lemma normCdf_sub_eq_intervalIntegral :
    normCdf 1 - normCdf (-1) =
      (∫ t in (-1 : ℝ)..1, gaussKernel t) / Real.sqrt (2 * Real.pi) := by
  unfold normCdf
  rw [div_sub_div_same,
    intervalIntegral.integral_Iic_sub_Iic gaussKernel_integrable.integrableOn
      gaussKernel_integrable.integrableOn]

lemma exp_neg_two_le_gaussKernel {t : ℝ} (h1 : -1 ≤ t) (h2 : t ≤ 1) :
    Real.exp (-2) ≤ gaussKernel t := by
  unfold gaussKernel
  apply Real.exp_le_exp.mpr
  nlinarith

lemma two_exp_le_intervalIntegral :
    2 * Real.exp (-2) ≤ ∫ t in (-1 : ℝ)..1, gaussKernel t := by
  have h : (∫ _t in (-1 : ℝ)..1, Real.exp (-2)) ≤ ∫ t in (-1 : ℝ)..1, gaussKernel t := by
    apply intervalIntegral.integral_mono_on (by norm_num)
      intervalIntegrable_const
      gaussKernel_integrable.intervalIntegrable
    intro t ht
    exact exp_neg_two_le_gaussKernel ht.1 ht.2
  rw [intervalIntegral.integral_const] at h
  calc 2 * Real.exp (-2) = (1 - (-1 : ℝ)) • Real.exp (-2) := by norm_num
    _ ≤ _ := h

lemma exp_neg_two_gt : (0.135 : ℝ) < Real.exp (-2) := by
  have e1 : Real.exp 1 < 2.7182818286 := Real.exp_one_lt_d9
  have e2 : Real.exp 2 < 7.39 := by
    rw [show (2 : ℝ) = 1 + 1 by norm_num, Real.exp_add]
    nlinarith [Real.exp_pos 1]
  have h : ((7.39 : ℝ))⁻¹ < (Real.exp 2)⁻¹ := by
    exact inv_strictAnti₀ (Real.exp_pos 2) e2
  rw [Real.exp_neg]
  calc (0.135 : ℝ) < (7.39 : ℝ)⁻¹ := by norm_num
    _ < _ := h

lemma sqrt_two_pi_lt : Real.sqrt (2 * Real.pi) < 2.51 := by
  rw [Real.sqrt_lt' (by norm_num)]
  nlinarith [Real.pi_lt_d2]

/-- Quantitative gap between `Φ(1)` and `Φ(-1)`: far larger than any numeric
tolerance such as `1e-6`. -/
lemma normCdf_gap_gt : 1 / 1000000 < normCdf 1 - normCdf (-1) := by
  rw [normCdf_sub_eq_intervalIntegral]
  have h1 : 2 * Real.exp (-2) / Real.sqrt (2 * Real.pi) ≤
      (∫ t in (-1 : ℝ)..1, gaussKernel t) / Real.sqrt (2 * Real.pi) :=
    div_le_div_of_nonneg_right two_exp_le_intervalIntegral sqrt_two_pi_pos.le
  have h2 : (1 : ℝ) / 1000000 < 2 * Real.exp (-2) / Real.sqrt (2 * Real.pi) := by
    have hnum : (2 : ℝ) * 0.135 < 2 * Real.exp (-2) := by nlinarith [exp_neg_two_gt]
    have ha : 2 * Real.exp (-2) / 2.51 < 2 * Real.exp (-2) / Real.sqrt (2 * Real.pi) :=
      div_lt_div_of_pos_left (by nlinarith [Real.exp_pos (-2)]) sqrt_two_pi_pos
        sqrt_two_pi_lt
    have hb : (2 : ℝ) * 0.135 / 2.51 ≤ 2 * Real.exp (-2) / 2.51 :=
      div_le_div_of_nonneg_right hnum.le (by norm_num)
    have hc : (1 : ℝ) / 1000000 < 2 * 0.135 / 2.51 := by norm_num
    linarith
  linarith

end NormCdfFacts

section PricerEval

/-- At `S = 1, K = 1, T = 1, r = 0, vol = 2` we have `d1 = 1`, `d2 = -1`, so
the code's pair is `(Φ(1) - Φ(-1), (Φ(1) - 1)·Φ(-1))`. -/
lemma black_scholes_eval_1 :
    black_scholes 1 1 1 0 2 =
      (normCdf 1 - normCdf (-1), (normCdf 1 - 1) * normCdf (-1)) := by
  unfold black_scholes
  simp only [Real.sqrt_one]
  norm_num [Real.log_one]

lemma put_formula_spec_eval_1 :
    put_formula_spec 1 1 1 0 2 = normCdf 1 - normCdf (-1) := by
  unfold put_formula_spec
  simp only [Real.sqrt_one]
  norm_num [Real.log_one]

end PricerEval

/-- C1: the claim states that the put price returned by
`black_scholes(S, K, T, r, vol)` equals `K·exp(−r·T)·Φ(−d2) − S·Φ(−d1)`.
The code's put line multiplies `Φ(−d1)` by the whole difference
`(K·exp(−r·T)·Φ(−d2) − S)` (misplaced parenthesis), so at
`S = 1, K = 1, T = 1, r = 0, vol = 2` the returned put price differs from
the claimed formula: the code returns `(Φ(1) − 1)·Φ(−1) < 0` while the
formula gives `Φ(1) − Φ(−1) ≥ 0`. -/
theorem put_line_ne_spec_formula :
    (black_scholes 1 1 1 0 2).2 ≠ put_formula_spec 1 1 1 0 2 := by
  have e1 : (black_scholes 1 1 1 0 2).2 = (normCdf 1 - 1) * normCdf (-1) := by
    rw [black_scholes_eval_1]
  rw [e1, put_formula_spec_eval_1]
  have h1 := normCdf_pos (-1)
  have h2 := normCdf_lt_one 1
  have h3 := normCdf_mono (show (-1 : ℝ) ≤ 1 by norm_num)
  have hneg : (normCdf 1 - 1) * normCdf (-1) < 0 :=
    mul_neg_of_neg_of_pos (by linarith) h1
  intro h
  linarith [h ▸ hneg]

/-- C2: the claim states put-call parity `call − put = S − K·exp(−r·T)` up
to a small numeric tolerance (e.g. `1e-6`) for all valid inputs. Because of
the put-line parenthesis bug, at `S = 1, K = 1, T = 1, r = 0, vol = 2` the
discrepancy `|call − put − (S − K·exp(−r·T))|` exceeds `1e-6` (it is about
`0.71`). -/
theorem put_call_parity_fails_beyond_tolerance :
    1 / 1000000 <
      |(black_scholes 1 1 1 0 2).1 - (black_scholes 1 1 1 0 2).2 -
        (1 - 1 * Real.exp (-(0 : ℝ) * 1))| := by
  have e1 : (black_scholes 1 1 1 0 2).1 = normCdf 1 - normCdf (-1) := by
    rw [black_scholes_eval_1]
  have e2 : (black_scholes 1 1 1 0 2).2 = (normCdf 1 - 1) * normCdf (-1) := by
    rw [black_scholes_eval_1]
  rw [e1, e2, show (-(0 : ℝ) * 1) = 0 by ring, Real.exp_zero]
  have h1 := normCdf_pos (-1)
  have h2 := normCdf_lt_one 1
  have h3 := normCdf_gap_gt
  have key : 1 / 1000000 <
      normCdf 1 - normCdf (-1) - (normCdf 1 - 1) * normCdf (-1) - (1 - 1 * 1) := by
    nlinarith
  exact lt_of_lt_of_le key (le_abs_self _)

/-- C4: for every valid input, the call price returned by `black_scholes`
equals `S·Φ(d1) − K·exp(−r·T)·Φ(d2)` with
`d1 = (ln(S/K) + (r + 0.5·vol²)·T)/(vol·√T)` and `d2 = d1 − vol·√T`.
The code's call line is exactly this formula. -/
theorem call_price_formula (S K T r vol : ℝ) (hS : 0 < S) (hK : 0 < K)
    (hT : 0 < T) (hvol : 0 < vol) :
    (black_scholes S K T r vol).1 =
      S * normCdf ((Real.log (S / K) + (r + 0.5 * vol ^ 2) * T) /
          (vol * Real.sqrt T)) -
        K * Real.exp (-r * T) *
          normCdf ((Real.log (S / K) + (r + 0.5 * vol ^ 2) * T) /
              (vol * Real.sqrt T) - vol * Real.sqrt T) := rfl

/-- Witness for C4 at `S = 100, K = 95, T = 1, r = 0.05, vol = 0.2`. -/
theorem call_price_formula_witness :
    (black_scholes 100 95 1 0.05 0.2).1 =
      100 * normCdf ((Real.log (100 / 95) + (0.05 + 0.5 * 0.2 ^ 2) * 1) /
          (0.2 * Real.sqrt 1)) -
        95 * Real.exp (-0.05 * 1) *
          normCdf ((Real.log (100 / 95) + (0.05 + 0.5 * 0.2 ^ 2) * 1) /
              (0.2 * Real.sqrt 1) - 0.2 * Real.sqrt 1) :=
  call_price_formula 100 95 1 0.05 0.2 (by norm_num) (by norm_num)
    (by norm_num) (by norm_num)

/-- C5: the claim states that for at-the-money inputs (`S = K`) with
`r = 0`, the call and put prices are equal. Because of the put-line
parenthesis bug, at `S = K = 1, T = 1, r = 0, vol = 2` the call price is
`Φ(1) − Φ(−1) ≥ 0` while the put price is `(Φ(1) − 1)·Φ(−1) < 0`. -/
theorem atm_zero_rate_call_ne_put :
    (black_scholes 1 1 1 0 2).1 ≠ (black_scholes 1 1 1 0 2).2 := by
  have e1 : (black_scholes 1 1 1 0 2).1 = normCdf 1 - normCdf (-1) := by
    rw [black_scholes_eval_1]
  have e2 : (black_scholes 1 1 1 0 2).2 = (normCdf 1 - 1) * normCdf (-1) := by
    rw [black_scholes_eval_1]
  rw [e1, e2]
  have h1 := normCdf_pos (-1)
  have h2 := normCdf_lt_one 1
  have h3 := normCdf_mono (show (-1 : ℝ) ≤ 1 by norm_num)
  have hneg : (normCdf 1 - 1) * normCdf (-1) < 0 :=
    mul_neg_of_neg_of_pos (by linarith) h1
  intro h
  linarith [h ▸ hneg]

/-- C6: the claim states that on every valid input both returned prices are
non-negative. Because of the put-line parenthesis bug, the put price at the
valid input `S = 1, K = 1, T = 1, r = 0, vol = 2` is negative. -/
theorem put_price_negative_at_valid_input :
    (black_scholes 1 1 1 0 2).2 < 0 := by
  have e2 : (black_scholes 1 1 1 0 2).2 = (normCdf 1 - 1) * normCdf (-1) := by
    rw [black_scholes_eval_1]
  rw [e2]
  exact mul_neg_of_neg_of_pos (by linarith [normCdf_lt_one 1]) (normCdf_pos (-1))

/-- C3 counterexample: the claim states that every input with `vol ≤ 0`,
`T ≤ 0`, `S ≤ 0` or `K ≤ 0` is rejected with an explicit `InvalidInput`
error. At `S = 1, K = 1, T = 1, r = 0, vol = -1` the code rejects nothing:
it runs to completion and returns a numeric pair. -/
theorem invalid_vol_not_rejected :
    exceptIsOk (black_scholes_run 1 1 1 0 (-1)) = true := by
  norm_num [black_scholes_run, pyDiv, pyLog, pySqrt, exceptIsOk, Real.sqrt_one]

/-- C3 amended: `black_scholes` performs no input validation and defines no
error kind. On invalid inputs it either propagates a Python arithmetic
exception — a math domain error from `math.log` when `S ≤ 0 < K` or
`K < 0 < S`, a `ZeroDivisionError` when `K = 0`, a math domain error from
`math.sqrt` when `T < 0`, a `ZeroDivisionError` when `T = 0` or `vol = 0` —
or, for `vol < 0` with the other inputs valid, silently returns a
(meaningless) numeric result. -/
theorem black_scholes_run_invalid_input_behaviour :
    (∀ S K T r vol : ℝ, S ≤ 0 → 0 < K →
        black_scholes_run S K T r vol = Except.error PyErr.domainError) ∧
    (∀ S T r vol : ℝ,
        black_scholes_run S 0 T r vol = Except.error PyErr.zeroDivision) ∧
    (∀ S K T r vol : ℝ, 0 < S → K < 0 →
        black_scholes_run S K T r vol = Except.error PyErr.domainError) ∧
    (∀ S K T r vol : ℝ, 0 < S → 0 < K → T < 0 →
        black_scholes_run S K T r vol = Except.error PyErr.domainError) ∧
    (∀ S K r vol : ℝ, 0 < S → 0 < K →
        black_scholes_run S K 0 r vol = Except.error PyErr.zeroDivision) ∧
    (∀ S K T r : ℝ, 0 < S → 0 < K → 0 < T →
        black_scholes_run S K T r 0 = Except.error PyErr.zeroDivision) ∧
    (∀ S K T r vol : ℝ, 0 < S → 0 < K → 0 < T → vol < 0 →
        exceptIsOk (black_scholes_run S K T r vol) = true) := by
  refine ⟨?_, ?_, ?_, ?_, ?_, ?_, ?_⟩
  · intro S K T r vol hS hK
    have hq : S / K ≤ 0 := div_nonpos_iff.mpr (Or.inr ⟨hS, hK.le⟩)
    simp [black_scholes_run, pyDiv, pyLog, hK.ne', hq]
  · intro S T r vol
    simp [black_scholes_run, pyDiv]
  · intro S K T r vol hS hK
    have hq : S / K ≤ 0 := (div_neg_of_pos_of_neg hS hK).le
    simp [black_scholes_run, pyDiv, pyLog, hK.ne, hq]
  · intro S K T r vol hS hK hT
    have hq : ¬S / K ≤ 0 := (div_pos hS hK).not_le
    simp [black_scholes_run, pyDiv, pyLog, pySqrt, hK.ne', hq, hT]
  · intro S K r vol hS hK
    have hq : ¬S / K ≤ 0 := (div_pos hS hK).not_le
    simp [black_scholes_run, pyDiv, pyLog, pySqrt, hK.ne', hq]
  · intro S K T r hS hK hT
    have hq : ¬S / K ≤ 0 := (div_pos hS hK).not_le
    simp [black_scholes_run, pyDiv, pyLog, pySqrt, hK.ne', hq, hT.not_lt]
  · intro S K T r vol hS hK hT hvol
    have hq : ¬S / K ≤ 0 := (div_pos hS hK).not_le
    have hd : vol * Real.sqrt T ≠ 0 :=
      (mul_neg_of_neg_of_pos hvol (Real.sqrt_pos.mpr hT)).ne
    simp [black_scholes_run, pyDiv, pyLog, pySqrt, exceptIsOk, hK.ne', hq,
      hT.not_lt, hd]

/-- Witness for the C3 amended theorem: a non-positive spot raises a math
domain error, and a negative volatility with otherwise-valid inputs returns
a numeric result without any error. -/
theorem black_scholes_run_invalid_input_behaviour_witness :
    black_scholes_run (-1) 2 3 0 1 = Except.error PyErr.domainError ∧
      exceptIsOk (black_scholes_run 2 3 4 5 (-6)) = true :=
  ⟨black_scholes_run_invalid_input_behaviour.1 (-1) 2 3 0 1 (by norm_num)
      (by norm_num),
    black_scholes_run_invalid_input_behaviour.2.2.2.2.2.2 2 3 4 5 (-6)
      (by norm_num) (by norm_num) (by norm_num) (by norm_num)⟩

/-- C7: the model-table loop produces exactly one output row per chain row
whose implied volatility is present, positive and not NaN, silently skips
every other row, and preserves the chain's input order (it equals an
order-preserving `filterMap` of the chain); in particular a 3-row chain
whose second row has NaN implied volatility yields exactly the rows built
from rows 1 and 3, in that order. -/
theorem table_rows_one_per_valid_row :
    (∀ (S t r : ℝ) (chain : List ChainRow),
        black_scholes_table_rows S t r chain =
          chain.filterMap (fun row =>
            match row.impliedVolatility with
            | Option.some (PyNum.val v) =>
              if 0 < v then
                Option.some
                  { strike := row.strike
                    callPrice := (black_scholes S row.strike t r v).1
                    putPrice := (black_scholes S row.strike t r v).2
                    vol := v }
              else Option.none
            | _ => Option.none)) ∧
    (∀ (S t r s1 v1 s2 s3 v3 : ℝ) (b1 a1 b2 a2 b3 a3 : PyNum),
        0 < v1 → 0 < v3 →
        black_scholes_table_rows S t r
            [⟨s1, Option.some (PyNum.val v1), b1, a1⟩,
             ⟨s2, Option.some PyNum.nan, b2, a2⟩,
             ⟨s3, Option.some (PyNum.val v3), b3, a3⟩] =
          [⟨s1, (black_scholes S s1 t r v1).1, (black_scholes S s1 t r v1).2, v1⟩,
           ⟨s3, (black_scholes S s3 t r v3).1, (black_scholes S s3 t r v3).2, v3⟩]) := by
  constructor
  · intro S t r chain
    induction chain with
    | nil => rfl
    | cons row rest ih =>
      cases hvol : row.impliedVolatility with
      | none => simp [black_scholes_table_rows, List.filterMap_cons, hvol, ih]
      | some pn =>
        cases pn with
        | nan => simp [black_scholes_table_rows, List.filterMap_cons, hvol, ih]
        | val v =>
          by_cases hv : v ≤ 0
          · simp [black_scholes_table_rows, List.filterMap_cons, hvol, hv,
              not_lt.mpr hv, ih]
          · simp [black_scholes_table_rows, List.filterMap_cons, hvol, hv,
              not_le.mp hv, ih]
  · intro S t r s1 v1 s2 s3 v3 b1 a1 b2 a2 b3 a3 h1 h3
    simp [black_scholes_table_rows, h1.not_le, h3.not_le]

/-- Witness for C7 at a concrete 3-row chain whose middle row has NaN
implied volatility. -/
theorem table_rows_one_per_valid_row_witness :
    black_scholes_table_rows 100 1 0
        [⟨95, Option.some (PyNum.val 0.2), PyNum.val 1, PyNum.val 2⟩,
         ⟨100, Option.some PyNum.nan, PyNum.val 3, PyNum.val 4⟩,
         ⟨105, Option.some (PyNum.val 0.3), PyNum.val 5, PyNum.val 6⟩] =
      [⟨95, (black_scholes 100 95 1 0 0.2).1, (black_scholes 100 95 1 0 0.2).2, 0.2⟩,
       ⟨105, (black_scholes 100 105 1 0 0.3).1, (black_scholes 100 105 1 0 0.3).2, 0.3⟩] :=
  table_rows_one_per_valid_row.2 100 1 0 95 0.2 100 105 0.3
    (PyNum.val 1) (PyNum.val 2) (PyNum.val 3) (PyNum.val 4)
    (PyNum.val 5) (PyNum.val 6) (by norm_num) (by norm_num)

/-- C8: in the model-vs-market loop, for a row with valid implied
volatility the market mid-price is `(bid + ask) / 2`; a row whose mid is
NaN is skipped entirely, and an emitted row carries
`difference = marketPrice − modelPrice`. -/
theorem vs_market_mid_and_difference :
    (∀ (S t r strike v b a : ℝ) (rest : List ChainRow), 0 < v →
        blkschl_vs_market_rows S t r
            (⟨strike, Option.some (PyNum.val v), PyNum.val b, PyNum.val a⟩ ::
              rest) =
          { strike := strike
            modelPrice := (black_scholes S strike t r v).1
            marketPrice := (b + a) / 2
            difference := (b + a) / 2 - (black_scholes S strike t r v).1
            vol := v } :: blkschl_vs_market_rows S t r rest) ∧
    (∀ (S t r : ℝ) (row : ChainRow) (rest : List ChainRow) (v : ℝ),
        row.impliedVolatility = Option.some (PyNum.val v) → 0 < v →
        (PyNum.divNum (PyNum.add row.bid row.ask) (PyNum.val 2)).isnan = true →
        blkschl_vs_market_rows S t r (row :: rest) =
          blkschl_vs_market_rows S t r rest) := by
  constructor
  · intro S t r strike v b a rest hv
    simp [blkschl_vs_market_rows, hv.not_le, PyNum.add, PyNum.divNum]
  · intro S t r row rest v hvol hv hnan
    cases hb : row.bid with
    | nan =>
      simp [blkschl_vs_market_rows, hvol, hv.not_le, hb, PyNum.add, PyNum.divNum]
    | val b =>
      cases ha : row.ask with
      | nan =>
        simp [blkschl_vs_market_rows, hvol, hv.not_le, hb, ha, PyNum.add,
          PyNum.divNum]
      | val a =>
        rw [hb, ha] at hnan
        simp [PyNum.add, PyNum.divNum, PyNum.isnan] at hnan

/-- Witness for C8: a row with `bid = NaN, ask = 5` is skipped entirely,
and a row with numeric quotes is emitted with mid `(1 + 5) / 2` and the
signed difference. -/
theorem vs_market_mid_and_difference_witness :
    blkschl_vs_market_rows 100 1 0
        [⟨95, Option.some (PyNum.val 0.2), PyNum.nan, PyNum.val 5⟩] = [] ∧
      blkschl_vs_market_rows 100 1 0
          [⟨95, Option.some (PyNum.val 0.2), PyNum.val 1, PyNum.val 5⟩] =
        [{ strike := 95
           modelPrice := (black_scholes 100 95 1 0 0.2).1
           marketPrice := (1 + 5) / 2
           difference := (1 + 5) / 2 - (black_scholes 100 95 1 0 0.2).1
           vol := 0.2 }] :=
  ⟨vs_market_mid_and_difference.2 100 1 0
      ⟨95, Option.some (PyNum.val 0.2), PyNum.nan, PyNum.val 5⟩ [] 0.2 rfl
      (by norm_num) rfl,
    vs_market_mid_and_difference.1 100 1 0 95 0.2 1 5 [] (by norm_num)⟩

/-- C10: the model-vs-market loop emits a comparison row for every row with
valid implied volatility and numeric bid and ask, with no validation of bid
or ask individually: the row is emitted for arbitrary real quotes,
including a negative bid or `bid > ask`. -/
theorem vs_market_no_bid_ask_validation (S t r strike v b a : ℝ)
    (rest : List ChainRow) (hv : 0 < v) :
    blkschl_vs_market_rows S t r
        (⟨strike, Option.some (PyNum.val v), PyNum.val b, PyNum.val a⟩ ::
          rest) =
      { strike := strike
        modelPrice := (black_scholes S strike t r v).1
        marketPrice := (b + a) / 2
        difference := (b + a) / 2 - (black_scholes S strike t r v).1
        vol := v } :: blkschl_vs_market_rows S t r rest := by
  simp [blkschl_vs_market_rows, hv.not_le, PyNum.add, PyNum.divNum]

/-- Witness for C10 with a negative bid that exceeds the (even more
negative) ask: the row is still emitted. -/
theorem vs_market_no_bid_ask_validation_witness :
    blkschl_vs_market_rows 100 1 0
        [⟨95, Option.some (PyNum.val 0.2), PyNum.val (-1), PyNum.val (-2)⟩] =
      [{ strike := 95
         modelPrice := (black_scholes 100 95 1 0 0.2).1
         marketPrice := (-1 + -2) / 2
         difference := (-1 + -2) / 2 - (black_scholes 100 95 1 0 0.2).1
         vol := 0.2 }] :=
  vs_market_no_bid_ask_validation 100 1 0 95 0.2 (-1) (-2) [] (by norm_num)

/-- C9 counterexample: the claim states that the time-to-expiry is the
number of whole days between the expiry date and the current date, divided
by 365. With expiry at day 10 and "now" at noon of day 9, the dates differ
by one whole day, so the claim gives `1 / 365`; the code subtracts the full
`datetime.now()` from the expiry's midnight and floors, giving
`⌊0.5⌋ / 365 = 0`. -/
theorem time_to_expiry_ne_date_difference :
    time_to_expiry 10 ⟨9, 1 / 2, by norm_num, by norm_num⟩ ≠
      time_to_expiry_spec 10 ⟨9, 1 / 2, by norm_num, by norm_num⟩ := by
  unfold time_to_expiry time_to_expiry_spec timedelta_days
  have h : ⌊(10 : ℝ) - ((9 : ℝ) + 1 / 2)⌋ = 0 := by
    rw [Int.floor_eq_zero_iff]
    constructor <;> norm_num
  norm_num [h]

/-- C9 amended: the time-to-expiry both reporters pass to the pricer is
`⌊expiry-midnight − now, in days⌋ / 365`: it equals the date difference over
365 only when "now" is exactly midnight, and is one day short of the date
difference (divided by 365) whenever the current time of day is past
midnight. -/
theorem time_to_expiry_floor_behaviour (expiryDay : ℤ) (now : PyDateTime) :
    time_to_expiry expiryDay now =
      (if now.frac = 0 then ((expiryDay - now.day : ℤ) : ℝ)
        else ((expiryDay - now.day : ℤ) : ℝ) - 1) / 365 := by
  unfold time_to_expiry timedelta_days
  by_cases h : now.frac = 0
  · rw [if_pos h, h]
    rw [show (expiryDay : ℝ) - ((now.day : ℝ) + 0) =
        ((expiryDay - now.day : ℤ) : ℝ) by push_cast; ring]
    rw [Int.floor_intCast]
  · rw [if_neg h]
    have h1 : 0 < now.frac := lt_of_le_of_ne now.frac_nonneg (Ne.symm h)
    have hfl : ⌊(expiryDay : ℝ) - ((now.day : ℝ) + now.frac)⌋ =
        expiryDay - now.day - 1 := by
      rw [Int.floor_eq_iff]
      constructor
      · push_cast
        linarith [now.frac_lt_one]
      · push_cast
        linarith
    rw [hfl]
    push_cast
    ring

end BlackScholes
